import Mathlib

/-
Verification of the lemmo-be-core application-composition library.

The development shallowly embeds the parts of the code base that the
properties below speak about:

  * core/app_manager.py : AppManager (config validation, config loading,
    dynamic app/schema/url discovery),
  * core/schema.py      : create_schema (GraphQL schema composition),
  * core/app_utils.py   : LemmoResponse and the message constructors,
  * core/__init__.py    : LEMMO_DEFAULT_CONFIG_DATA.

Python values that flow through the configuration are embedded as the
inductive type YValue (the image of yaml.safe_load on the data the code
handles); Python exceptions are embedded as PyExn, and code that can
raise is written in the exception monad Py.  Calls into the import
system (importlib.import_module) are parameters of the embedding: an
Env assigns to every module name the outcome of importing it.
-/

namespace Lemmo

/-- Embedded Python/YAML values: the result type of yaml.safe_load and
the shape of the configuration data handled by AppManager. -/
inductive YValue where
  | null : YValue
  | bool : Bool → YValue
  | int : Int → YValue
  | str : String → YValue
  | list : List YValue → YValue
  | dict : List (String × YValue) → YValue

/-- Embedded Python exception classes that the code distinguishes. -/
inductive PyExn where
  | importError
  | typeError
  | attributeError
  | keyError
  | valueError
  | otherError
deriving DecidableEq

/-- Computations that may raise a Python exception. -/
abbrev Py (α : Type) := Except PyExn α

/-- Whether an Except result is a success (Python: no exception raised). -/
def exOk {α : Type} : Py α → Bool
  | .ok _ => true
  | .error _ => false

/-- First-match association-list lookup: the semantics of reading a key
of an embedded Python dict (keys of dicts built by the code are unique,
so first-match agrees with dict lookup). -/
def alookup {α : Type} : List (String × α) → String → Option α
  | [], _ => none
  | p :: rest, k => if p.1 = k then some p.2 else alookup rest k

/-- Python truthiness of an embedded value (bool(v)). -/
def pyTruthy : YValue → Bool
  | .null => false
  | .bool b => b
  | .int n => n ≠ 0
  | .str s => !s.isEmpty
  | .list l => !l.isEmpty
  | .dict d => !d.isEmpty

/-- The dict.get method: returns an Option on dict receivers and raises
AttributeError on receivers that have no get method. -/
def pyGet (v : YValue) (k : String) : Py (Option YValue) :=
  match v with
  | .dict d => .ok (alookup d k)
  | _ => .error .attributeError

/-- Subscript v[k] with a string key: KeyError when the key is absent
from a dict, TypeError on non-dict receivers. -/
def pySubscript (v : YValue) (k : String) : Py YValue :=
  match v with
  | .dict d =>
    match alookup d k with
    | some x => .ok x
    | none => .error .keyError
  | _ => .error .typeError

/-- Iteration (for x in v): lists yield their elements, strings their
characters, dicts their keys; other values raise TypeError. -/
def pyIter : YValue → Py (List YValue)
  | .list l => .ok l
  | .str s => .ok (s.data.map (fun c => YValue.str (String.mk [c])))
  | .dict d => .ok (d.map (fun p => YValue.str p.1))
  | _ => .error .typeError

/-- f-string formatting of an embedded value.  Only the string case is
ever reached from a validated configuration; the container cases stand
in for the Python repr, which no claim depends on. -/
def pyFormat : YValue → String
  | .str s => s
  | .int n => toString n
  | .bool b => cond b "True" "False"
  | .null => "None"
  | .list _ => "<list>"
  | .dict _ => "<dict>"

/-- Dictionary field read used by validate_config_data (field in app /
app[field]); none on non-dict values. -/
def yget (v : YValue) (k : String) : Option YValue :=
  match v with
  | .dict d => alookup d k
  | _ => none

/-! ## AppManager.validate_config_data (core/app_manager.py, lines 26-65) -/

/-- The required-field loop of validate_config_data: for each field in
order, an error when the key is absent, an error when its value is not
a string.  Errors are accumulated in source order. -/
def checkFields (i : Nat) (app : YValue) : List String → List String
  | [] => []
  | f :: rest =>
    (match yget app f with
     | none => [s!"App at index {i} missing required field: {f}"]
     | some (.str _) => []
     | some _ => [s!"App at index {i} field '{f}' must be a string"]) ++ checkFields i app rest

/-- Validation of a single app entry at index i. -/
def validateApp (i : Nat) (app : YValue) : List String :=
  match app with
  | .dict _ => checkFields i app ["name", "module", "url_prefix"]
  | _ => [s!"App at index {i} must be a dictionary"]

/-- The enumerate loop of validate_config_data over the apps list. -/
def validateApps (i : Nat) : List YValue → List String
  | [] => []
  | a :: rest => validateApp i a ++ validateApps (i + 1) rest

/-- AppManager.validate_config_data: returns (is_valid, errors). -/
def validate_config_data (config_data : YValue) : Bool × List String :=
  match config_data with
  | .dict d =>
    (match alookup d "apps" with
     | some (.list apps) =>
       let errors := validateApps 0 apps
       (errors.isEmpty, errors)
     | some _ => (false, ["'apps' must be a list"])
     | none => (false, ["Configuration must contain 'apps' key"]))
  | _ => (false, ["Configuration must be a dictionary"])

/-! ## Specification-side description of a well-formed configuration
(from the claim wording: a dict whose 'apps' key holds a list of dicts
with string values at 'name', 'module' and 'url_prefix'). -/

/-- Whether an optional value is a string value. -/
def isStrVal : Option YValue → Bool
  | some (.str _) => true
  | _ => false

/-- A well-formed app entry per the claim wording. -/
def wellFormedApp (app : YValue) : Bool :=
  match app with
  | .dict _ =>
    isStrVal (yget app "name") && isStrVal (yget app "module")
      && isStrVal (yget app "url_prefix")
  | _ => false

/-- A well-formed configuration per the claim wording. -/
def wellFormedConfig (v : YValue) : Bool :=
  match v with
  | .dict d =>
    (match alookup d "apps" with
     | some (.list apps) => apps.all wellFormedApp
     | _ => false)
  | _ => false

/-! ## LEMMO_DEFAULT_CONFIG_DATA (core/__init__.py, lines 17-88) -/

/-- One default app entry, in the key order of the source. -/
def defaultApp (name description modulePath urlPfx : String) : YValue :=
  .dict [("name", .str name), ("description", .str description),
         ("module", .str modulePath), ("url_prefix", .str urlPfx)]

/-- LEMMO_DEFAULT_CONFIG_DATA: the default configuration written by
generate_config. -/
def LEMMO_DEFAULT_CONFIG_DATA : YValue :=
  .dict [("apps", .list
    [defaultApp "Authentication Module" "Handles user authentication and authorization."
       "lemmo_apps.authentication" "authentications",
     defaultApp "Inventory Module" "Handles inventory management."
       "lemmo_apps.inventory" "inventory",
     defaultApp "Location Module" "Handles location management & Facilities."
       "lemmo_apps.location" "locations",
     defaultApp "Requisition Module" "Handles requisition management."
       "lemmo_apps.requisition" "requisitions",
     defaultApp "Stock Module" "Handles stock management."
       "lemmo_apps.stock" "stocks",
     defaultApp "Dashboard Module" "Handles dashboard management."
       "lemmo_apps.dashboard" "dashboards",
     defaultApp "FHIR API Module" "Handles FHIR data management."
       "lemmo_apps.fhir_api" "fhir",
     defaultApp "Integration Module" "Handles integration with external systems."
       "lemmo_apps.integration" "integrations",
     defaultApp "Logistics Module" "Handles logistics and transportation management."
       "lemmo_apps.logistics" "logistics",
     defaultApp "Supplier Module" "Handles supplier management and relationships."
       "lemmo_apps.supplier" "suppliers",
     defaultApp "Order Module" "Handles order management and processing."
       "lemmo_apps.order" "orders"])]

/-! ## AppManager.get_config_data_from_config_file
(core/app_manager.py, lines 112-149) -/

/-- Outcome of opening and yaml-parsing the config file. -/
inductive ReadResult where
  | missing                -- open raises FileNotFoundError
  | yamlError              -- yaml.safe_load raises yaml.YAMLError
  | otherError             -- any other exception while reading
  | content (v : YValue)   -- the parsed YAML value

/-- State of the file system as seen by the config loader.  writeOk
states whether the write performed by generate_config(overwrite=True)
succeeds, secondReadOk whether the re-read of the generated file
succeeds. -/
structure FsEnv where
  firstRead : ReadResult
  writeOk : Bool
  secondReadOk : Bool

/-- AppManager.get_config_data_from_config_file.  On FileNotFoundError
the code calls generate_config(overwrite=True), which writes
LEMMO_DEFAULT_CONFIG_DATA as YAML (yaml round-trips this plain data
unchanged), and re-reads the file without validating; every other path
validates the loaded data and returns None on failure. -/
def get_config_data_from_config_file (fs : FsEnv) : Option YValue :=
  match fs.firstRead with
  | .content v => if (validate_config_data v).1 then some v else none
  | .missing =>
    if fs.writeOk && fs.secondReadOk then some LEMMO_DEFAULT_CONFIG_DATA else none
  | .yamlError => none
  | .otherError => none

/-! ## The import system and the shapes of the imported modules -/

/-- A GraphQL field value found in a _meta.fields mapping: either a raw
Python dict, or any other object, recorded with whether it answers
hasattr(field, "type") or hasattr(field, "_type") and with a tag giving
it an identity. -/
inductive FieldVal where
  | rawDict (tag : Nat)
  | fieldDesc (hasType : Bool) (tag : Nat)
deriving DecidableEq

/-- The _meta.fields metadata of a Query/Mutation class: the hasattr
chain can fail, access can raise, or it yields an ordered field map. -/
inductive MetaFields where
  | absent
  | raises (e : PyExn)
  | fields (fl : List (String × FieldVal))
deriving DecidableEq

/-- A Query or Mutation class found in an app schema module. -/
structure GqlClass where
  metaFields : MetaFields
deriving DecidableEq

/-- The contents of an app <module>.schema module: its Query and
Mutation attributes when present. -/
structure SchemaModule where
  queryClass : Option GqlClass
  mutationClass : Option GqlClass
deriving DecidableEq

/-- The contents of an app <module>.urls module: its name (the module
object identity used by include()) and whether it has a urlpatterns
attribute. -/
structure UrlsModule where
  modName : String
  urlpatterns : Option Unit
deriving DecidableEq

/-- The environment of the embedding: the file system state and the
outcome of every import the three discovery functions perform.
importlib.import_module is keyed by the module name; the three maps
partition it by the suffix of the name the code asks for. -/
structure Env where
  fs : FsEnv
  importModule : String → Py Unit
  importSchemaModule : String → Py SchemaModule
  importUrlsModule : String → Py UrlsModule

/-! ## AppManager.get_apps (core/app_manager.py, lines 151-186) -/

/-- The body of the get_apps loop for one app entry.  app.get("module")
raises on non-dict entries (outside the try of the source); a falsy
module name is skipped with a warning; the import is attempted inside
try/except and any failure skips the app (import_module on a non-string
raises inside that try and is caught by the broad handler). -/
def load_one_app (env : Env) (app : YValue) : Py (Option String) :=
  match pyGet app "module" with
  | .error e => .error e
  | .ok none => .ok none
  | .ok (some mv) =>
    if pyTruthy mv then
      match mv with
      | .str m =>
        (match env.importModule m with
         | .ok _ => .ok (some m)
         | .error _ => .ok none)
      | _ => .ok none
    else .ok none

/-- The for loop of get_apps, accumulating loaded module names. -/
def get_apps_loop (env : Env) : List YValue → List String → Py (List String)
  | [], acc => .ok acc
  | a :: rest, acc =>
    match load_one_app env a with
    | .error e => .error e
    | .ok r => get_apps_loop env rest (acc ++ r.toList)

/-- AppManager.get_apps: loads the configuration, returns [] unless it
is a dict, and collects the module names whose import succeeds. -/
def get_apps (env : Env) : Py (List String) :=
  match get_config_data_from_config_file env.fs with
  | some (.dict d) =>
    (match pyIter ((alookup d "apps").getD (.list [])) with
     | .error e => .error e
     | .ok elems => get_apps_loop env elems [])
  | _ => .ok []

/-- Specification-side reading of the claim: the module names of the
configured apps whose import succeeds, in configuration order; entries
without a string module name contribute nothing. -/
def apps_with_successful_import (env : Env) (apps : List YValue) : List String :=
  apps.filterMap (fun a =>
    match yget a "module" with
    | some (.str m) => if exOk (env.importModule m) then some m else none
    | _ => none)

/-! ## AppManager.get_app_schema (core/app_manager.py, lines 188-296) -/

/-- The validation applied to a Query/Mutation class before it is
collected: the class must have _meta.fields, accessing them must not
raise, and no field value may be a raw dict (a dict field raises
ValueError, which the inner handler catches, skipping the class). -/
def collectClass (c : GqlClass) : Option GqlClass :=
  match c.metaFields with
  | .fields fl =>
    if fl.any (fun p => match p.2 with | .rawDict _ => true | _ => false)
    then none else some c
  | _ => none

/-- The body of the get_app_schema loop for one app entry.  As in
get_apps, app.get("module") is outside the try; a falsy module path is
skipped; import failures and validation failures skip the class. -/
def load_one_schema (env : Env) (app : YValue) :
    Py (Option GqlClass × Option GqlClass) :=
  match pyGet app "module" with
  | .error e => .error e
  | .ok none => .ok (none, none)
  | .ok (some mv) =>
    if pyTruthy mv then
      match env.importSchemaModule (pyFormat mv ++ ".schema") with
      | .error _ => .ok (none, none)
      | .ok sm => .ok (sm.queryClass.bind collectClass, sm.mutationClass.bind collectClass)
    else .ok (none, none)

/-- The for loop of get_app_schema, accumulating queries and mutations. -/
def get_app_schema_loop (env : Env) :
    List YValue → List GqlClass → List GqlClass → Py (List GqlClass × List GqlClass)
  | [], qacc, macc => .ok (qacc, macc)
  | a :: rest, qacc, macc =>
    match load_one_schema env a with
    | .error e => .error e
    | .ok (q, m) => get_app_schema_loop env rest (qacc ++ q.toList) (macc ++ m.toList)

/-- AppManager.get_app_schema: returns ([], []) on a falsy
configuration, else collects Query/Mutation classes from every app. -/
def get_app_schema (env : Env) : Py (List GqlClass × List GqlClass) :=
  match get_config_data_from_config_file env.fs with
  | none => .ok ([], [])
  | some cfg =>
    if pyTruthy cfg then
      match pyGet cfg "apps" with
      | .error e => .error e
      | .ok appsOpt =>
        match pyIter (appsOpt.getD (.list [])) with
        | .error e => .error e
        | .ok elems => get_app_schema_loop env elems [] []
    else .ok ([], [])

/-- Specification-side reading of the claim: a class is included when
all of its _meta.fields values are non-dict field descriptors, and
excluded when some value is a raw dict. -/
def specIncludesClass (c : GqlClass) : Bool :=
  match c.metaFields with
  | .fields fl => fl.all (fun p => match p.2 with | .rawDict _ => false | .fieldDesc _ _ => true)
  | _ => false

/-- Specification-side collection of one app entry. -/
def specLoadClass (env : Env) (pick : SchemaModule → Option GqlClass) (a : YValue) :
    Option GqlClass :=
  match yget a "module" with
  | some (.str m) =>
    (match env.importSchemaModule (m ++ ".schema") with
     | .ok sm => (pick sm).bind (fun c => if specIncludesClass c then some c else none)
     | .error _ => none)
  | _ => none

/-- Specification-side collected queries, in configuration order. -/
def spec_collected_queries (env : Env) (apps : List YValue) : List GqlClass :=
  apps.filterMap (specLoadClass env (fun sm => sm.queryClass))

/-- Specification-side collected mutations, in configuration order. -/
def spec_collected_mutations (env : Env) (apps : List YValue) : List GqlClass :=
  apps.filterMap (specLoadClass env (fun sm => sm.mutationClass))

/-! ## AppManager.get_app_urls (core/app_manager.py, lines 298-349) -/

/-- The value returned by Django path(route, include(url_module)): a
URLResolver mounting the urlpatterns of the included module under the
route. -/
structure DjangoURLResolver where
  route : String
  includedModule : String
deriving DecidableEq

/-- urls.extend(resolver): Django URLResolver objects define neither
an iterator nor indexed access, so list.extend raises TypeError. -/
def listExtendResolver (_acc : List DjangoURLResolver) (_r : DjangoURLResolver) :
    Py (List DjangoURLResolver) :=
  Except.error PyExn.typeError

/-- Every except handler of the get_app_urls loop interpolates
app['name'] into its log message, so a skipped app with no name key
raises KeyError out of the handler. -/
def skipWithName (app : YValue) (acc : List DjangoURLResolver) :
    Py (List DjangoURLResolver) :=
  match pySubscript app "name" with
  | .ok _ => .ok acc
  | .error e => .error e

/-- The body of the get_app_urls loop for one app entry, with the
try/except structure of the source: app['module'] and the import are
inside the outer try; the urlpatterns access and the extend call are
inside the inner try; every handler logs using app['name']. -/
def load_one_url (env : Env) (app : YValue) (acc : List DjangoURLResolver) :
    Py (List DjangoURLResolver) :=
  match pySubscript app "module" with
  | .error _ => skipWithName app acc
  | .ok mv =>
    match env.importUrlsModule (pyFormat mv ++ ".urls") with
    | .error _ => skipWithName app acc
    | .ok um =>
      match um.urlpatterns with
      | none => skipWithName app acc
      | some _ =>
        match pyGet app "url_prefix" with
        | .error _ => skipWithName app acc
        | .ok upOpt =>
          match listExtendResolver acc
              { route := pyFormat (upOpt.getD (.str "")) ++ "/",
                includedModule := um.modName } with
          | .ok l => .ok l
          | .error _ => skipWithName app acc

/-- The for loop of get_app_urls. -/
def get_app_urls_loop (env : Env) :
    List YValue → List DjangoURLResolver → Py (List DjangoURLResolver)
  | [], acc => .ok acc
  | a :: rest, acc =>
    match load_one_url env a acc with
    | .error e => .error e
    | .ok acc2 => get_app_urls_loop env rest acc2

/-- AppManager.get_app_urls: returns [] on a falsy configuration, else
runs the loop over the configured apps. -/
def get_app_urls (env : Env) : Py (List DjangoURLResolver) :=
  match get_config_data_from_config_file env.fs with
  | none => .ok []
  | some cfg =>
    if pyTruthy cfg then
      match pyGet cfg "apps" with
      | .error e => .error e
      | .ok appsOpt =>
        match pyIter (appsOpt.getD (.list [])) with
        | .error e => .error e
        | .ok elems => get_app_urls_loop env elems []
    else .ok []

/-! ## create_schema (core/schema.py, lines 29-150) -/

/-- A field of the composed Query type: either a graphene.String built
by create_schema itself (its default_value and whether a resolver is
attached), or a field collected from an app class. -/
inductive QField where
  | gString (defaultValue : String) (hasResolver : Bool)
  | collected (f : FieldVal)
deriving DecidableEq

/-- The field validation of create_schema:
hasattr(field, "type") or hasattr(field, "_type").  A raw Python dict
has neither attribute. -/
def fieldHasType : FieldVal → Bool
  | .fieldDesc h _ => h
  | .rawDict _ => false

/-- The inner merge loop over the _meta.fields of one class: a field
passing the type check is added only when its name is not already
present (Python dicts keep insertion order, embedded as append). -/
def addFields {β : Type} (emb : FieldVal → β) :
    List (String × β) → List (String × FieldVal) → List (String × β)
  | acc, [] => acc
  | acc, p :: rest =>
    addFields emb
      (if fieldHasType p.2 then
        (if (alookup acc p.1).isSome then acc else acc ++ [(p.1, emb p.2)])
       else acc) rest

/-- The per-class step: classes without usable _meta.fields (absent or
raising) are skipped by the hasattr guard or the except handler. -/
def addClass {β : Type} (emb : FieldVal → β)
    (acc : List (String × β)) (c : GqlClass) : List (String × β) :=
  match c.metaFields with
  | .fields fl => addFields emb acc fl
  | _ => acc

/-- The outer merge loop over the collected classes. -/
def addClasses {β : Type} (emb : FieldVal → β) :
    List (String × β) → List GqlClass → List (String × β)
  | acc, [] => acc
  | acc, c :: rest => addClasses emb (addClass emb acc c) rest

/-- The composed schema: the ordered field maps of the Query and
Mutation object types. -/
structure GSchema where
  queryFields : List (String × QField)
  mutationFields : List (String × FieldVal)
deriving DecidableEq

/-- The schema assembly of create_schema from the collected classes:
query_fields starts with the hello graphene.String (default value
"Hi there", resolver resolve_hello), app fields are merged in, and the
fallback branches reproduce the source (the query fallback is dead
since query_fields always holds hello). -/
def buildSchema (queries mutations : List GqlClass) : GSchema :=
  let qf := addClasses QField.collected
    [("hello", QField.gString "Hi there" true)] queries
  let mf := addClasses id [] mutations
  { queryFields := if qf.isEmpty then [("hello", QField.gString "Hi there" true)] else qf,
    mutationFields := mf }

/-- create_schema: composes the schema from AppManager.get_app_schema;
if that raised, the except handler returns the minimal ErrorQuery
schema whose hello field defaults to "Schema Error". -/
def create_schema (env : Env) : GSchema :=
  match get_app_schema env with
  | .ok (qs, ms) => buildSchema qs ms
  | .error _ =>
    { queryFields := [("hello", QField.gString "Schema Error" true)],
      mutationFields := [] }

/-- Specification-side (amended claim) list of the valid fields of one
class: the fields passing the type check, in declaration order. -/
def validFieldsOf (c : GqlClass) : List (String × FieldVal) :=
  match c.metaFields with
  | .fields fl => fl.filter (fun p => fieldHasType p.2)
  | _ => []

/-- All valid fields of a class list, classes in order. -/
def concatValidFields : List GqlClass → List (String × FieldVal)
  | [] => []
  | c :: rest => validFieldsOf c ++ concatValidFields rest

/-- Specification-side first-wins merge: the first valid field of the
given name, scanning classes in collected order. -/
def firstValidField (cs : List GqlClass) (name : String) : Option FieldVal :=
  alookup (concatValidFields cs) name

/-! ## The response envelope (core/app_utils.py) -/

/-- The MessageType enum. -/
inductive MessageType where
  | success | error | warning | info
deriving DecidableEq

/-- MessageType.value. -/
def MessageType.value : MessageType → String
  | .success => "success"
  | .error => "error"
  | .warning => "warning"
  | .info => "info"

/-- Values stored in an envelope dict. -/
inductive EnvVal where
  | noneV : EnvVal
  | boolV : Bool → EnvVal
  | strV : String → EnvVal
  | listV : List EnvVal → EnvVal
  | dictV : List (String × EnvVal) → EnvVal

/-- Python truthiness of an envelope value. -/
def envTruthy : EnvVal → Bool
  | .noneV => false
  | .boolV b => b
  | .strV s => !s.isEmpty
  | .listV l => !l.isEmpty
  | .dictV d => !d.isEmpty

/-- The LemmoResponse dataclass.  The last four fields default to None
in the source; the constructors below always pass them explicitly. -/
structure LemmoResponse where
  success : Bool
  message : String
  error_details : Option (List EnvVal)
  data : Option EnvVal
  errors : Option (List EnvVal)
  message_type : Option MessageType

/-- LemmoResponse.__post_init__: replaces None error_details and errors
by [], and a None message_type by SUCCESS or ERROR according to
success. -/
def post_init (r : LemmoResponse) : LemmoResponse :=
  { r with
    error_details := some (r.error_details.getD []),
    errors := some (r.errors.getD []),
    message_type :=
      some (r.message_type.getD (if r.success then .success else .error)) }

/-- LemmoResponse.to_dict.  message_type is always some after
__post_init__, which runs before any to_dict call the constructors
make; the none branch stands in for the AttributeError the source
would raise there. -/
def to_dict (r : LemmoResponse) : List (String × EnvVal) :=
  [("success", .boolV r.success),
   ("message", .strV r.message),
   ("error_details", match r.error_details with | some l => .listV l | none => .noneV),
   ("data", r.data.getD .noneV),
   ("errors", match r.errors with | some l => .listV l | none => .noneV),
   ("message_type", match r.message_type with | some t => .strV t.value | none => .noneV)]

/-- The x or y idiom applied to the data argument: a falsy or absent
data payload becomes the empty dict. -/
def pyOrEmptyDict (x : Option EnvVal) : EnvVal :=
  match x with
  | some v => if envTruthy v then v else .dictV []
  | none => .dictV []

/-- lemmo_message: builds the dataclass (error_details or [],
data or {}, errors or []) and returns its dict form.  Source defaults:
success=False, message="An error occurred", rest None. -/
def lemmo_message (success : Bool) (message : String)
    (error_details : Option (List EnvVal)) (data : Option EnvVal)
    (errors : Option (List EnvVal)) (message_type : Option MessageType) :
    List (String × EnvVal) :=
  to_dict (post_init
    { success := success, message := message,
      error_details := some (error_details.getD []),
      data := some (pyOrEmptyDict data),
      errors := some (errors.getD []),
      message_type := message_type })

/-- success_message (default message "Operation completed successfully"). -/
def success_message (message : String) (data : Option EnvVal) :
    List (String × EnvVal) :=
  lemmo_message true message none data none (some .success)

/-- error_message (default message "An error occurred"). -/
def error_message (message : String) (error_details errors : Option (List EnvVal)) :
    List (String × EnvVal) :=
  lemmo_message false message (some (error_details.getD [])) none
    (some (errors.getD [])) (some .error)

/-- warning_message (default message "Warning"). -/
def warning_message (message : String) (data : Option EnvVal) :
    List (String × EnvVal) :=
  lemmo_message true message none data none (some .warning)

/-- info_message (default message "Information"). -/
def info_message (message : String) (data : Option EnvVal) :
    List (String × EnvVal) :=
  lemmo_message true message none data none (some .info)

/-! ## Basic lemmas about lookup -/

/-- Left-biased choice on options (the effect of checking a key before
inserting). -/
def oOr {α : Type} : Option α → Option α → Option α
  | some v, _ => some v
  | none, b => b

theorem oOr_none_right {α : Type} (a : Option α) : oOr a none = a := by
  cases a <;> rfl

theorem oOr_assoc {α : Type} (a b c : Option α) :
    oOr (oOr a b) c = oOr a (oOr b c) := by
  cases a <;> cases b <;> rfl

theorem map_oOr {α β : Type} (f : α → β) (a b : Option α) :
    Option.map f (oOr a b) = oOr (Option.map f a) (Option.map f b) := by
  cases a <;> cases b <;> rfl

theorem alookup_append {α : Type} (xs ys : List (String × α)) (k : String) :
    alookup (xs ++ ys) k = oOr (alookup xs k) (alookup ys k) := by
  induction xs with
  | nil => rfl
  | cons p rest ih =>
    simp only [List.cons_append, alookup]
    by_cases h : p.1 = k
    · simp [h, oOr]
    · simp [h, ih]

theorem alookup_isSome_ne_nil {α : Type} {d : List (String × α)} {k : String} {x : α}
    (h : alookup d k = some x) : d ≠ [] := by
  intro hnil; subst hnil; simp [alookup] at h

/-! ## validate_config_data against the well-formedness predicate -/

theorem isStrVal_iff (o : Option YValue) :
    isStrVal o = true ↔ ∃ s, o = some (.str s) := by
  cases o with
  | none => simp [isStrVal]
  | some v => cases v <;> simp [isStrVal]

theorem checkFields_nil_iff (i : Nat) (app : YValue) (fs : List String) :
    checkFields i app fs = [] ↔ ∀ f ∈ fs, isStrVal (yget app f) = true := by
  induction fs with
  | nil => simp [checkFields]
  | cons f rest ih =>
    simp only [checkFields, List.append_eq_nil, List.mem_cons]
    constructor
    · rintro ⟨h1, h2⟩ g hg
      rcases hg with hg | hg
      · subst hg
        cases hyg : yget app g with
        | none => simp [hyg] at h1
        | some v => cases v <;> simp_all [isStrVal]
      · exact (ih.mp h2) g hg
    · intro h
      refine ⟨?_, ih.mpr (fun g hg => h g (Or.inr hg))⟩
      have hf := h f (Or.inl rfl)
      rcases (isStrVal_iff _).mp hf with ⟨s, hs⟩
      simp [hs]

theorem validateApp_nil_iff (i : Nat) (a : YValue) :
    validateApp i a = [] ↔ wellFormedApp a = true := by
  cases a with
  | dict d =>
    simp only [validateApp, wellFormedApp, checkFields_nil_iff]
    constructor
    · intro h
      have hn := h "name" (by simp)
      have hm := h "module" (by simp)
      have hu := h "url_prefix" (by simp)
      simp [hn, hm, hu]
    · intro h f hf
      simp only [Bool.and_eq_true] at h
      simp only [List.mem_cons, List.not_mem_nil, or_false] at hf
      rcases hf with hf | hf | hf
      · subst hf; exact h.1.1
      · subst hf; exact h.1.2
      · subst hf; exact h.2
  | null => simp [validateApp, wellFormedApp]
  | bool b => simp [validateApp, wellFormedApp]
  | int n => simp [validateApp, wellFormedApp]
  | str s => simp [validateApp, wellFormedApp]
  | list l => simp [validateApp, wellFormedApp]

theorem validateApps_nil_iff (l : List YValue) :
    ∀ i, validateApps i l = [] ↔ ∀ a ∈ l, wellFormedApp a = true := by
  induction l with
  | nil => intro i; simp [validateApps]
  | cons x rest ih =>
    intro i
    simp only [validateApps, List.append_eq_nil, List.mem_cons]
    constructor
    · rintro ⟨h1, h2⟩ b hb
      rcases hb with hb | hb
      · subst hb; exact (validateApp_nil_iff i b).mp h1
      · exact ((ih (i + 1)).mp h2) b hb
    · intro h
      exact ⟨(validateApp_nil_iff i x).mpr (h x (Or.inl rfl)),
        (ih (i + 1)).mpr (fun b hb => h b (Or.inr hb))⟩

theorem validate_fst_iff (v : YValue) :
    (validate_config_data v).1 = true ↔ wellFormedConfig v = true := by
  cases v with
  | dict d =>
    simp only [validate_config_data, wellFormedConfig]
    cases halk : alookup d "apps" with
    | none => simp
    | some w =>
      cases w <;> simp_all [List.isEmpty_iff, validateApps_nil_iff, List.all_eq_true]
  | null => simp [validate_config_data, wellFormedConfig]
  | bool b => simp [validate_config_data, wellFormedConfig]
  | int n => simp [validate_config_data, wellFormedConfig]
  | str s => simp [validate_config_data, wellFormedConfig]
  | list l => simp [validate_config_data, wellFormedConfig]

theorem validate_fst_snd (v : YValue) :
    (validate_config_data v).1 = true → (validate_config_data v).2 = [] := by
  cases v with
  | dict d =>
    simp only [validate_config_data]
    cases halk : alookup d "apps" with
    | none => simp
    | some w => cases w <;> simp_all [List.isEmpty_iff]
  | null => simp [validate_config_data]
  | bool b => simp [validate_config_data]
  | int n => simp [validate_config_data]
  | str s => simp [validate_config_data]
  | list l => simp [validate_config_data]

theorem validate_snd_nonempty (v : YValue) :
    (validate_config_data v).1 = false → (validate_config_data v).2 ≠ [] := by
  cases v with
  | dict d =>
    simp only [validate_config_data]
    cases halk : alookup d "apps" with
    | none => simp
    | some w => cases w <;> simp_all [List.isEmpty_iff]
  | null => simp [validate_config_data]
  | bool b => simp [validate_config_data]
  | int n => simp [validate_config_data]
  | str s => simp [validate_config_data]
  | list l => simp [validate_config_data]

/-- Claim C5: validate_config_data returns (True, []) exactly on
configurations that are dicts whose 'apps' value is a list of dicts
with string 'name', 'module' and 'url_prefix' values, and otherwise
returns False together with a non-empty error list. -/
theorem claim_C5_validate_config_data (v : YValue) :
    (validate_config_data v = (true, []) ↔ wellFormedConfig v = true)
    ∧ ((validate_config_data v).1 = false → (validate_config_data v).2 ≠ []) := by
  constructor
  · constructor
    · intro h
      exact (validate_fst_iff v).mp (by rw [h])
    · intro h
      have h1 : (validate_config_data v).1 = true := (validate_fst_iff v).mpr h
      have h2 := validate_fst_snd v h1
      calc validate_config_data v = ((validate_config_data v).1, (validate_config_data v).2) := rfl
        _ = (true, []) := by rw [h1, h2]
  · exact validate_snd_nonempty v

/-- Witness for claim C5: the default configuration is accepted and a
dict without the 'apps' key is rejected with a non-empty error list. -/
theorem claim_C5_witness :
    wellFormedConfig LEMMO_DEFAULT_CONFIG_DATA = true
    ∧ (validate_config_data (YValue.dict [])).2 ≠ [] :=
  ⟨(claim_C5_validate_config_data LEMMO_DEFAULT_CONFIG_DATA).1.mp (by decide),
   (claim_C5_validate_config_data (YValue.dict [])).2 (by decide)⟩

/-! ## The config loader always hands out validated data -/

theorem validate_default :
    validate_config_data LEMMO_DEFAULT_CONFIG_DATA = (true, []) := by decide

/-- Every value the config loader returns passes validation: the
content branch validates explicitly, and the regeneration branch
returns LEMMO_DEFAULT_CONFIG_DATA, which validates. -/
theorem get_config_some_valid (fs : FsEnv) (v : YValue)
    (h : get_config_data_from_config_file fs = some v) :
    (validate_config_data v).1 = true := by
  cases hfr : fs.firstRead with
  | content w =>
    simp only [get_config_data_from_config_file, hfr] at h
    by_cases hv : (validate_config_data w).1 = true
    · simp only [hv, if_true] at h
      cases h; exact hv
    · simp [hv] at h
  | missing =>
    simp only [get_config_data_from_config_file, hfr] at h
    by_cases hw : fs.writeOk && fs.secondReadOk
    · simp only [hw, if_true] at h
      cases h
      rw [validate_default]
    · simp [hw] at h
  | yamlError => simp [get_config_data_from_config_file, hfr] at h
  | otherError => simp [get_config_data_from_config_file, hfr] at h

theorem wellFormedConfig_shape (v : YValue) (h : wellFormedConfig v = true) :
    ∃ d apps, v = .dict d ∧ alookup d "apps" = some (.list apps)
      ∧ ∀ a ∈ apps, wellFormedApp a = true := by
  cases v with
  | dict d =>
    cases halk : alookup d "apps" with
    | none => simp [wellFormedConfig, halk] at h
    | some w =>
      cases w with
      | list apps =>
        refine ⟨d, apps, rfl, halk, ?_⟩
        simp only [wellFormedConfig, halk, List.all_eq_true] at h
        exact h
      | null => simp [wellFormedConfig, halk] at h
      | bool b => simp [wellFormedConfig, halk] at h
      | int n => simp [wellFormedConfig, halk] at h
      | str s => simp [wellFormedConfig, halk] at h
      | dict d2 => simp [wellFormedConfig, halk] at h
  | null => simp [wellFormedConfig] at h
  | bool b => simp [wellFormedConfig] at h
  | int n => simp [wellFormedConfig] at h
  | str s => simp [wellFormedConfig] at h
  | list l => simp [wellFormedConfig] at h

/-- The shape of every configuration the loader returns: a dict whose
'apps' key holds a list of well-formed app entries. -/
theorem config_shape (fs : FsEnv) (v : YValue)
    (h : get_config_data_from_config_file fs = some v) :
    ∃ d apps, v = .dict d ∧ alookup d "apps" = some (.list apps)
      ∧ ∀ a ∈ apps, wellFormedApp a = true :=
  wellFormedConfig_shape v ((validate_fst_iff v).mp (get_config_some_valid fs v h))

theorem wellFormedApp_shape (a : YValue) (h : wellFormedApp a = true) :
    ∃ d, a = .dict d
      ∧ (∃ s, alookup d "name" = some (.str s))
      ∧ (∃ s, alookup d "module" = some (.str s))
      ∧ (∃ s, alookup d "url_prefix" = some (.str s)) := by
  cases a with
  | dict d =>
    simp only [wellFormedApp, yget, Bool.and_eq_true, isStrVal_iff] at h
    exact ⟨d, rfl, h.1.1, h.1.2, h.2⟩
  | null => simp [wellFormedApp] at h
  | bool b => simp [wellFormedApp] at h
  | int n => simp [wellFormedApp] at h
  | str s => simp [wellFormedApp] at h
  | list l => simp [wellFormedApp] at h

/-- Claim C6: get_config_data_from_config_file returns None or a
configuration that passes validate_config_data, on every path
including the regeneration path, and returns None whenever the file
content fails validation. -/
theorem claim_C6_config_loader (fs : FsEnv) :
    (∀ v, get_config_data_from_config_file fs = some v →
      (validate_config_data v).1 = true)
    ∧ (∀ w, fs.firstRead = .content w → (validate_config_data w).1 = false →
      get_config_data_from_config_file fs = none) := by
  constructor
  · exact fun v h => get_config_some_valid fs v h
  · intro w hfr hbad
    simp [get_config_data_from_config_file, hfr, hbad]

/-- Witness for claim C6: an invalid file content yields None, and the
regeneration path yields data passing validation. -/
theorem claim_C6_witness :
    get_config_data_from_config_file ⟨.content (.dict []), true, true⟩ = none
    ∧ (validate_config_data LEMMO_DEFAULT_CONFIG_DATA).1 = true :=
  ⟨(claim_C6_config_loader ⟨.content (.dict []), true, true⟩).2 (.dict []) rfl (by decide),
   (claim_C6_config_loader ⟨.missing, true, true⟩).1 LEMMO_DEFAULT_CONFIG_DATA rfl⟩

/-! ## get_apps -/

/-- The value the get_apps loop appends for one well-formed app entry,
as computed by the code: skip a falsy module name, else record the name
exactly when the import succeeds. -/
def loadAppOpt (env : Env) (a : YValue) : Option String :=
  match yget a "module" with
  | some (.str m) =>
    if m.isEmpty then none
    else (match env.importModule m with | .ok _ => some m | .error _ => none)
  | _ => none

theorem filterMap_congr_mem {α β : Type} (f g : α → Option β) (l : List α)
    (h : ∀ a ∈ l, f a = g a) : l.filterMap f = l.filterMap g := by
  induction l with
  | nil => rfl
  | cons x rest ih =>
    simp only [List.filterMap_cons, h x (by simp)]
    rw [ih (fun a ha => h a (by simp [ha]))]

theorem load_one_app_wf (env : Env) (a : YValue) (h : wellFormedApp a = true) :
    load_one_app env a = .ok (loadAppOpt env a) := by
  obtain ⟨d, rfl, -, ⟨m, hm⟩, -⟩ := wellFormedApp_shape a h
  simp only [load_one_app, loadAppOpt, pyGet, yget, hm, pyTruthy]
  by_cases he : m.isEmpty
  · simp [he]
  · simp only [he, Bool.not_false, if_true, if_false]
    cases env.importModule m <;> simp

theorem get_apps_loop_wf (env : Env) (l : List YValue)
    (h : ∀ a ∈ l, wellFormedApp a = true) :
    ∀ acc, get_apps_loop env l acc = .ok (acc ++ l.filterMap (loadAppOpt env)) := by
  induction l with
  | nil => intro acc; simp [get_apps_loop]
  | cons x rest ih =>
    intro acc
    have hx := load_one_app_wf env x (h x (by simp))
    simp only [get_apps_loop, hx]
    rw [ih (fun a ha => h a (by simp [ha]))]
    cases hl : loadAppOpt env x <;> simp [List.filterMap_cons, hl]

/-- On any configuration the loader accepts, get_apps returns the
filterMap of the per-entry code behaviour over the apps list. -/
theorem get_apps_eq (env : Env) (d : List (String × YValue)) (apps : List YValue)
    (h : get_config_data_from_config_file env.fs = some (.dict d))
    (happs : alookup d "apps" = some (.list apps)) :
    get_apps env = .ok (apps.filterMap (loadAppOpt env)) := by
  obtain ⟨d2, apps2, heq, halk2, hwf⟩ := config_shape env.fs _ h
  have hd : d = d2 := by injection heq
  subst hd
  rw [happs] at halk2
  have hap : apps = apps2 := by
    injection halk2 with hx
    injection hx
  subst hap
  have hrun : get_apps env = get_apps_loop env apps [] := by
    simp [get_apps, h, happs, pyIter]
  rw [hrun, get_apps_loop_wf env apps hwf []]
  simp

theorem str_isEmpty_true_iff (s : String) : s.isEmpty = true ↔ s = "" :=
  String.isEmpty_iff s

theorem loadAppOpt_eq_spec (env : Env) (a : YValue)
    (h : wellFormedApp a = true) (h0 : exOk (env.importModule "") = false) :
    loadAppOpt env a =
      (match yget a "module" with
       | some (.str m) => if exOk (env.importModule m) then some m else none
       | _ => none) := by
  obtain ⟨d, rfl, -, ⟨m, hm⟩, -⟩ := wellFormedApp_shape a h
  simp only [loadAppOpt, yget, hm]
  by_cases he : m.isEmpty
  · have : m = "" := (str_isEmpty_true_iff m).mp he
    subst this
    simp [he, h0]
  · simp only [he, if_false]
    cases him : env.importModule m <;> simp [exOk, him]

/-- Claim C4: get_apps returns exactly the module names of configured
apps whose import succeeds, in configuration order, omitting entries
whose import fails or that lack a usable module name, and returns []
when the configuration cannot be loaded.  (Importing the empty module
name always fails in Python, which the hypothesis on the environment
records.) -/
theorem claim_C4_get_apps (env : Env) :
    (get_config_data_from_config_file env.fs = none → get_apps env = .ok [])
    ∧ (∀ d apps, get_config_data_from_config_file env.fs = some (.dict d) →
        alookup d "apps" = some (.list apps) →
        exOk (env.importModule "") = false →
        get_apps env = .ok (apps_with_successful_import env apps)) := by
  constructor
  · intro h
    simp [get_apps, h]
  · intro d apps h happs h0
    obtain ⟨d2, apps2, heq, halk2, hwf⟩ := config_shape env.fs _ h
    have hd : d = d2 := by injection heq
    subst hd
    rw [happs] at halk2
    have hap : apps = apps2 := by
      injection halk2 with hx
      injection hx
    subst hap
    rw [get_apps_eq env d apps h happs]
    unfold apps_with_successful_import
    rw [filterMap_congr_mem _ _ apps
      (fun a ha => loadAppOpt_eq_spec env a (hwf a ha) h0)]

/-- Concrete two-app configuration for the C4 witness. -/
def c4Apps : List YValue :=
  [.dict [("name", .str "Good App"), ("module", .str "good_app"),
          ("url_prefix", .str "good")],
   .dict [("name", .str "Broken App"), ("module", .str "broken_app"),
          ("url_prefix", .str "broken")]]

/-- Concrete environment for the C4 witness: the first module imports,
the second does not. -/
def c4Env : Env :=
  { fs := ⟨.content (.dict [("apps", .list c4Apps)]), true, true⟩,
    importModule := fun s => if s = "good_app" then .ok () else .error .importError,
    importSchemaModule := fun _ => .error .importError,
    importUrlsModule := fun _ => .error .importError }

/-- Witness for claim C4: on the concrete configuration, only the
importable module name is returned. -/
theorem claim_C4_witness : get_apps c4Env = .ok ["good_app"] := by
  have h := (claim_C4_get_apps c4Env).2 [("apps", .list c4Apps)] c4Apps rfl rfl rfl
  rw [h]
  rfl

/-! ## get_app_schema -/

/-- The pair the get_app_schema loop accumulates for one well-formed
app entry, as computed by the code. -/
def loadSchemaPair (env : Env) (a : YValue) : Option GqlClass × Option GqlClass :=
  match yget a "module" with
  | some (.str m) =>
    if m.isEmpty then (none, none)
    else
      (match env.importSchemaModule (m ++ ".schema") with
       | .ok sm => (sm.queryClass.bind collectClass, sm.mutationClass.bind collectClass)
       | .error _ => (none, none))
  | _ => (none, none)

theorem load_one_schema_wf (env : Env) (a : YValue) (h : wellFormedApp a = true) :
    load_one_schema env a = .ok (loadSchemaPair env a) := by
  obtain ⟨d, rfl, -, ⟨m, hm⟩, -⟩ := wellFormedApp_shape a h
  simp only [load_one_schema, loadSchemaPair, pyGet, yget, hm, pyTruthy, pyFormat]
  by_cases he : m.isEmpty
  · simp [he]
  · simp only [he, Bool.not_false, if_true, if_false]
    cases env.importSchemaModule (m ++ ".schema") <;> simp

theorem get_app_schema_loop_wf (env : Env) (l : List YValue)
    (h : ∀ a ∈ l, wellFormedApp a = true) :
    ∀ qacc macc, get_app_schema_loop env l qacc macc =
      .ok (qacc ++ l.filterMap (fun a => (loadSchemaPair env a).1),
           macc ++ l.filterMap (fun a => (loadSchemaPair env a).2)) := by
  induction l with
  | nil => intro qacc macc; simp [get_app_schema_loop]
  | cons x rest ih =>
    intro qacc macc
    have hx := load_one_schema_wf env x (h x (by simp))
    simp only [get_app_schema_loop, hx]
    rw [ih (fun a ha => h a (by simp [ha]))]
    cases h1 : (loadSchemaPair env x).1 <;> cases h2 : (loadSchemaPair env x).2 <;>
      simp [List.filterMap_cons, h1, h2]

/-- On any configuration the loader accepts, get_app_schema returns the
per-entry code behaviour accumulated over the apps list. -/
theorem get_app_schema_eq (env : Env) (d : List (String × YValue)) (apps : List YValue)
    (h : get_config_data_from_config_file env.fs = some (.dict d))
    (happs : alookup d "apps" = some (.list apps)) :
    get_app_schema env =
      .ok (apps.filterMap (fun a => (loadSchemaPair env a).1),
           apps.filterMap (fun a => (loadSchemaPair env a).2)) := by
  obtain ⟨d2, apps2, heq, halk2, hwf⟩ := config_shape env.fs _ h
  have hd : d = d2 := by injection heq
  subst hd
  rw [happs] at halk2
  have hap : apps = apps2 := by
    injection halk2 with hx
    injection hx
  subst hap
  have htr : pyTruthy (.dict d) = true := by
    simp [pyTruthy, List.isEmpty_iff, alookup_isSome_ne_nil happs]
  have hrun : get_app_schema env = get_app_schema_loop env apps [] [] := by
    simp [get_app_schema, h, htr, pyGet, happs, pyIter]
  rw [hrun, get_app_schema_loop_wf env apps hwf [] []]
  simp

theorem any_raw_eq_not_all (fl : List (String × FieldVal)) :
    (fl.any fun p => match p.2 with | .rawDict _ => true | _ => false)
      = !(fl.all fun p => match p.2 with | .rawDict _ => false | .fieldDesc _ _ => true) := by
  induction fl with
  | nil => rfl
  | cons p rest ih =>
    cases hp : p.2 with
    | rawDict t => simp [List.any_cons, List.all_cons, hp]
    | fieldDesc ht t => simp [List.any_cons, List.all_cons, hp, ih]

theorem collectClass_eq_spec (c : GqlClass) :
    collectClass c = if specIncludesClass c then some c else none := by
  cases c with
  | mk mf =>
    cases mf with
    | absent => rfl
    | raises e => rfl
    | fields fl =>
      simp only [collectClass, specIncludesClass, any_raw_eq_not_all]
      by_cases hall : (fl.all fun p =>
          match p.2 with | .rawDict _ => false | .fieldDesc _ _ => true) = true
      · simp [hall]
      · have hf : (fl.all fun p =>
            match p.2 with | .rawDict _ => false | .fieldDesc _ _ => true) = false := by
          simpa using hall
        simp [hf]

theorem loadSchemaPair_eq_spec (env : Env) (a : YValue)
    (h : wellFormedApp a = true)
    (h0 : exOk (env.importSchemaModule ".schema") = false) :
    (loadSchemaPair env a).1 = specLoadClass env (fun sm => sm.queryClass) a
    ∧ (loadSchemaPair env a).2 = specLoadClass env (fun sm => sm.mutationClass) a := by
  obtain ⟨d, rfl, -, ⟨m, hm⟩, -⟩ := wellFormedApp_shape a h
  simp only [loadSchemaPair, specLoadClass, yget, hm]
  by_cases he : m.isEmpty
  · have hme : m = "" := (str_isEmpty_true_iff m).mp he
    subst hme
    simp only [he, if_true, String.empty_append]
    cases h0s : env.importSchemaModule ".schema" with
    | ok sm => rw [h0s] at h0; simp [exOk] at h0
    | error e => simp [h0s]
  · simp only [he, if_false]
    cases hs : env.importSchemaModule (m ++ ".schema") with
    | error e => simp [hs]
    | ok sm =>
      simp only [hs]
      constructor
      · cases hq : sm.queryClass with
        | none => simp [hq]
        | some c => simp [hq, collectClass_eq_spec c]
      · cases hq : sm.mutationClass with
        | none => simp [hq]
        | some c => simp [hq, collectClass_eq_spec c]

/-- Claim C3: get_app_schema excludes every Query/Mutation class whose
_meta.fields holds a raw dict value, and includes classes whose field
values are all non-dict descriptors, app by app in configuration
order.  (Importing the empty module name always fails in Python, which
the hypothesis on the environment records.) -/
theorem claim_C3_schema_filter (env : Env) (d : List (String × YValue))
    (apps : List YValue)
    (h : get_config_data_from_config_file env.fs = some (.dict d))
    (happs : alookup d "apps" = some (.list apps))
    (h0 : exOk (env.importSchemaModule ".schema") = false) :
    get_app_schema env =
      .ok (spec_collected_queries env apps, spec_collected_mutations env apps) := by
  obtain ⟨d2, apps2, heq, halk2, hwf⟩ := config_shape env.fs _ h
  have hd : d = d2 := by injection heq
  subst hd
  rw [happs] at halk2
  have hap : apps = apps2 := by
    injection halk2 with hx
    injection hx
  subst hap
  rw [get_app_schema_eq env d apps h happs]
  unfold spec_collected_queries spec_collected_mutations
  rw [filterMap_congr_mem _ _ apps
      (fun a ha => (loadSchemaPair_eq_spec env a (hwf a ha) h0).1),
    filterMap_congr_mem _ _ apps
      (fun a ha => (loadSchemaPair_eq_spec env a (hwf a ha) h0).2)]

/-- A Query class with a raw dict field value. -/
def dirtyQuery : GqlClass := ⟨.fields [("bad_field", .rawDict 7)]⟩

/-- A Query class whose fields are all typed descriptors. -/
def cleanQuery : GqlClass := ⟨.fields [("good_field", .fieldDesc true 3)]⟩

/-- Concrete two-app configuration for the C3 witness. -/
def c3Apps : List YValue :=
  [.dict [("name", .str "Dirty App"), ("module", .str "dirty_app"),
          ("url_prefix", .str "dirty")],
   .dict [("name", .str "Clean App"), ("module", .str "clean_app"),
          ("url_prefix", .str "clean")]]

/-- Concrete environment for the C3 witness: the first app exposes a
Query with a dict field, the second a clean Query. -/
def c3Env : Env :=
  { fs := ⟨.content (.dict [("apps", .list c3Apps)]), true, true⟩,
    importModule := fun _ => .ok (),
    importSchemaModule := fun s =>
      if s = "dirty_app.schema" then .ok ⟨some dirtyQuery, none⟩
      else if s = "clean_app.schema" then .ok ⟨some cleanQuery, none⟩
      else .error .importError,
    importUrlsModule := fun _ => .error .importError }

/-- Witness for claim C3: the dict-field Query is excluded and the
clean Query is included. -/
theorem claim_C3_witness : get_app_schema c3Env = .ok ([cleanQuery], []) := by
  have h := claim_C3_schema_filter c3Env [("apps", .list c3Apps)] c3Apps rfl rfl rfl
  rw [h]
  rfl

/-! ## get_app_urls -/

theorem load_one_url_wf (env : Env) (a : YValue) (h : wellFormedApp a = true)
    (acc : List DjangoURLResolver) : load_one_url env a acc = .ok acc := by
  obtain ⟨d, rfl, ⟨n, hn⟩, ⟨m, hm⟩, -⟩ := wellFormedApp_shape a h
  have hskip : skipWithName (.dict d) acc = .ok acc := by
    simp [skipWithName, pySubscript, hn]
  simp only [load_one_url, pySubscript, hm]
  cases hu : env.importUrlsModule (pyFormat (.str m) ++ ".urls") with
  | error e => simpa [hu] using hskip
  | ok um =>
    cases hp : um.urlpatterns with
    | none => simpa [hu, hp] using hskip
    | some u => simpa [hu, hp, pyGet, listExtendResolver] using hskip

theorem get_app_urls_loop_wf (env : Env) (l : List YValue)
    (h : ∀ a ∈ l, wellFormedApp a = true) :
    ∀ acc, get_app_urls_loop env l acc = .ok acc := by
  induction l with
  | nil => intro acc; simp [get_app_urls_loop]
  | cons x rest ih =>
    intro acc
    simp only [get_app_urls_loop, load_one_url_wf env x (h x (by simp)) acc]
    exact ih (fun a ha => h a (by simp [ha])) acc

/-- The central fact behind claims C1 and C7: get_app_urls never
returns a route.  urls.extend is called on the single URLResolver
produced by path(...), which is not iterable, so every app ends in the
TypeError handler and is skipped. -/
theorem get_app_urls_always_empty (env : Env) : get_app_urls env = .ok [] := by
  cases hcfg : get_config_data_from_config_file env.fs with
  | none => simp [get_app_urls, hcfg]
  | some v =>
    obtain ⟨d, apps, rfl, happs, hwf⟩ := config_shape env.fs v hcfg
    have htr : pyTruthy (.dict d) = true := by
      simp [pyTruthy, List.isEmpty_iff, alookup_isSome_ne_nil happs]
    simp only [get_app_urls, hcfg, htr, if_true, pyGet, happs, Option.getD, pyIter]
    exact get_app_urls_loop_wf env apps hwf []

/-- Concrete failing input for claim C1: a validated one-app
configuration whose urls module imports successfully and defines
urlpatterns. -/
def c1Apps : List YValue :=
  [.dict [("name", .str "Demo App"), ("module", .str "demo_app"),
          ("url_prefix", .str "demo")]]

/-- Concrete environment for claim C1. -/
def c1Env : Env :=
  { fs := ⟨.content (.dict [("apps", .list c1Apps)]), true, true⟩,
    importModule := fun _ => .ok (),
    importSchemaModule := fun _ => .error .importError,
    importUrlsModule := fun s =>
      if s = "demo_app.urls" then .ok ⟨"demo_app.urls", some ()⟩
      else .error .importError }

/-- Claim C1 (code bug): even for an app whose urls module imports and
defines urlpatterns, get_app_urls returns no route at all: the
list.extend call raises TypeError on the non-iterable URLResolver, the
broad handler swallows it, and the result is empty. -/
theorem claim_C1_get_app_urls_no_routes :
    c1Env.importUrlsModule "demo_app.urls" = .ok ⟨"demo_app.urls", some ()⟩
    ∧ get_app_urls c1Env = .ok [] := by
  constructor
  · rfl
  · exact get_app_urls_always_empty c1Env

/-! ## Claim C7: no exception escapes the three discovery functions -/

theorem get_apps_isOk (env : Env) : ∃ l, get_apps env = .ok l := by
  cases hcfg : get_config_data_from_config_file env.fs with
  | none => exact ⟨[], by simp [get_apps, hcfg]⟩
  | some v =>
    obtain ⟨d, apps, rfl, happs, hwf⟩ := config_shape env.fs v hcfg
    exact ⟨apps.filterMap (loadAppOpt env), get_apps_eq env d apps hcfg happs⟩

theorem get_app_schema_isOk (env : Env) :
    ∃ qm, get_app_schema env = .ok qm := by
  cases hcfg : get_config_data_from_config_file env.fs with
  | none => exact ⟨([], []), by simp [get_app_schema, hcfg]⟩
  | some v =>
    obtain ⟨d, apps, rfl, happs, hwf⟩ := config_shape env.fs v hcfg
    exact ⟨_, get_app_schema_eq env d apps hcfg happs⟩

/-- Claim C7: whatever the import system does (import failures, missing
attributes, raising _meta.fields access, non-iterable URL objects), the
three discovery functions return normally; every configuration the
loader hands them has passed validation, so even the handlers that
interpolate app['name'] cannot raise. -/
theorem claim_C7_no_exception_escapes (env : Env) :
    (∃ l, get_apps env = .ok l)
    ∧ (∃ qm, get_app_schema env = .ok qm)
    ∧ (∃ u, get_app_urls env = .ok u) :=
  ⟨get_apps_isOk env, get_app_schema_isOk env, ⟨[], get_app_urls_always_empty env⟩⟩

/-! ## create_schema: first-wins field merging -/

theorem addFields_cons {β : Type} (emb : FieldVal → β) (acc : List (String × β))
    (p : String × FieldVal) (rest : List (String × FieldVal)) :
    addFields emb acc (p :: rest)
      = addFields emb
          (if fieldHasType p.2 then
            (if (alookup acc p.1).isSome then acc else acc ++ [(p.1, emb p.2)])
           else acc) rest := rfl

theorem addFields_lookup {β : Type} (emb : FieldVal → β) (fl : List (String × FieldVal)) :
    ∀ (acc : List (String × β)) (k : String),
      alookup (addFields emb acc fl) k
        = oOr (alookup acc k)
            (Option.map emb (alookup (fl.filter (fun p => fieldHasType p.2)) k)) := by
  induction fl with
  | nil =>
    intro acc k
    simp [addFields, List.filter_nil, alookup, oOr_none_right]
  | cons p rest ih =>
    intro acc k
    rw [addFields_cons]
    by_cases hft : fieldHasType p.2 = true
    · rw [if_pos hft]
      by_cases hin : (alookup acc p.1).isSome = true
      · rw [if_pos hin, ih acc k]
        by_cases hk : p.1 = k
        · obtain ⟨v, hv⟩ := Option.isSome_iff_exists.mp hin
          subst hk
          simp [List.filter_cons, hft, alookup, hv, oOr]
        · simp [List.filter_cons, hft, alookup, hk]
      · rw [if_neg hin, ih (acc ++ [(p.1, emb p.2)]) k, alookup_append, oOr_assoc]
        by_cases hk : p.1 = k
        · subst hk
          simp [List.filter_cons, hft, alookup, oOr]
        · simp [List.filter_cons, hft, alookup, hk, oOr]
    · rw [if_neg hft, ih acc k]
      simp [List.filter_cons, hft]

theorem addClass_lookup {β : Type} (emb : FieldVal → β) (acc : List (String × β))
    (c : GqlClass) (k : String) :
    alookup (addClass emb acc c) k
      = oOr (alookup acc k) (Option.map emb (alookup (validFieldsOf c) k)) := by
  cases c with
  | mk mf =>
    cases mf with
    | fields fl => exact addFields_lookup emb fl acc k
    | absent => simp [addClass, validFieldsOf, alookup, oOr_none_right]
    | raises e => simp [addClass, validFieldsOf, alookup, oOr_none_right]

theorem addClasses_lookup {β : Type} (emb : FieldVal → β) (cs : List GqlClass) :
    ∀ (acc : List (String × β)) (k : String),
      alookup (addClasses emb acc cs) k
        = oOr (alookup acc k) (Option.map emb (alookup (concatValidFields cs) k)) := by
  induction cs with
  | nil =>
    intro acc k
    simp [addClasses, concatValidFields, alookup, oOr_none_right]
  | cons c rest ih =>
    intro acc k
    simp only [addClasses, concatValidFields]
    rw [ih (addClass emb acc c) k, addClass_lookup emb acc c k, oOr_assoc,
      alookup_append, map_oOr]

theorem addFields_ext {β : Type} (emb : FieldVal → β) (fl : List (String × FieldVal)) :
    ∀ acc : List (String × β), ∃ ext, addFields emb acc fl = acc ++ ext := by
  induction fl with
  | nil => intro acc; exact ⟨[], by simp [addFields]⟩
  | cons p rest ih =>
    intro acc
    rw [addFields_cons]
    by_cases hft : fieldHasType p.2 = true
    · rw [if_pos hft]
      by_cases hin : (alookup acc p.1).isSome = true
      · obtain ⟨ext, hext⟩ := ih acc
        exact ⟨ext, by rw [if_pos hin, hext]⟩
      · obtain ⟨ext, hext⟩ := ih (acc ++ [(p.1, emb p.2)])
        refine ⟨(p.1, emb p.2) :: ext, ?_⟩
        rw [if_neg hin, hext, List.append_assoc]
        rfl
    · obtain ⟨ext, hext⟩ := ih acc
      exact ⟨ext, by rw [if_neg hft, hext]⟩

theorem addClass_ext {β : Type} (emb : FieldVal → β) (acc : List (String × β))
    (c : GqlClass) : ∃ ext, addClass emb acc c = acc ++ ext := by
  cases c with
  | mk mf =>
    cases mf with
    | fields fl => exact addFields_ext emb fl acc
    | absent => exact ⟨[], by simp [addClass]⟩
    | raises e => exact ⟨[], by simp [addClass]⟩

theorem addClasses_ext {β : Type} (emb : FieldVal → β) (cs : List GqlClass) :
    ∀ acc : List (String × β), ∃ ext, addClasses emb acc cs = acc ++ ext := by
  induction cs with
  | nil => intro acc; exact ⟨[], by simp [addClasses]⟩
  | cons c rest ih =>
    intro acc
    obtain ⟨e1, he1⟩ := addClass_ext emb acc c
    obtain ⟨e2, he2⟩ := ih (addClass emb acc c)
    refine ⟨e1 ++ e2, ?_⟩
    show addClasses emb (addClass emb acc c) rest = acc ++ (e1 ++ e2)
    rw [he2, he1, List.append_assoc]

/-- The hello field heads the query field map, and the query fields are
exactly the merge result (the empty fallback branch of the source is
dead because hello is always present). -/
theorem buildSchema_queryFields_eq (qs ms : List GqlClass) :
    (buildSchema qs ms).queryFields
      = addClasses QField.collected [("hello", QField.gString "Hi there" true)] qs := by
  obtain ⟨ext, hx⟩ :=
    addClasses_ext QField.collected qs [("hello", QField.gString "Hi there" true)]
  simp [buildSchema, hx]

/-- Claim C2: when get_app_schema collects no Query class, the schema
created by create_schema has the hello field, a graphene String with
default value "Hi there". -/
theorem claim_C2_hello_fallback (env : Env) (ms : List GqlClass)
    (h : get_app_schema env = .ok ([], ms)) :
    alookup (create_schema env).queryFields "hello"
      = some (QField.gString "Hi there" true) := by
  simp only [create_schema, h]
  rw [buildSchema_queryFields_eq [] ms]
  rfl

/-- Environment with an unparsable config file: no app contributes
anything. -/
def envNoApps : Env :=
  { fs := ⟨.yamlError, true, true⟩,
    importModule := fun _ => .error .importError,
    importSchemaModule := fun _ => .error .importError,
    importUrlsModule := fun _ => .error .importError }

/-- Witness for claim C2: with no usable configuration, get_app_schema
collects nothing and the schema still serves hello. -/
theorem claim_C2_witness :
    alookup (create_schema envNoApps).queryFields "hello"
      = some (QField.gString "Hi there" true) :=
  claim_C2_hello_fallback envNoApps [] rfl

/-! ## Claim C9: field merging in create_schema -/

/-- A collected Query class whose shared field value has no type
attribute (a non-dict object, so get_app_schema collects it). -/
def dupClassA : GqlClass := ⟨.fields [("shared_field", .fieldDesc false 1)]⟩

/-- A later collected Query class with a typed field of the same name. -/
def dupClassB : GqlClass := ⟨.fields [("shared_field", .fieldDesc true 2)]⟩

/-- Concrete two-app configuration for the C9 counterexample. -/
def c9Apps : List YValue :=
  [.dict [("name", .str "First App"), ("module", .str "first_app"),
          ("url_prefix", .str "first")],
   .dict [("name", .str "Second App"), ("module", .str "second_app"),
          ("url_prefix", .str "second")]]

/-- Concrete environment for the C9 counterexample. -/
def c9Env : Env :=
  { fs := ⟨.content (.dict [("apps", .list c9Apps)]), true, true⟩,
    importModule := fun _ => .ok (),
    importSchemaModule := fun s =>
      if s = "first_app.schema" then .ok ⟨some dupClassA, none⟩
      else if s = "second_app.schema" then .ok ⟨some dupClassB, none⟩
      else .error .importError,
    importUrlsModule := fun _ => .error .importError }

/-- Counterexample to claim C9 as stated: both classes are collected
and define the field shared_field, yet the schema keeps the field of
the LATER class, because the earlier occurrence fails the
hasattr(field, "type")/("_type") check and is skipped rather than
reserved. -/
theorem claim_C9_counterexample :
    get_app_schema c9Env = .ok ([dupClassA, dupClassB], [])
    ∧ alookup (create_schema c9Env).queryFields "shared_field"
        = some (QField.collected (FieldVal.fieldDesc true 2))
    ∧ alookup (create_schema c9Env).queryFields "shared_field"
        ≠ some (QField.collected (FieldVal.fieldDesc false 1)) := by
  refine ⟨rfl, rfl, by decide⟩

/-- Claim C9 as amended: hello is inserted first and never replaced,
and among the fields that pass the type check, merging is first-wins
across the collected classes, for queries and for mutations alike. -/
theorem claim_C9_first_wins_amended :
    (∀ qs ms : List GqlClass,
      (buildSchema qs ms).queryFields.head?
        = some ("hello", QField.gString "Hi there" true))
    ∧ (∀ (qs ms : List GqlClass) (name : String), name ≠ "hello" →
        alookup (buildSchema qs ms).queryFields name
          = (firstValidField qs name).map QField.collected)
    ∧ (∀ (qs ms : List GqlClass) (name : String),
        alookup (buildSchema qs ms).mutationFields name
          = firstValidField ms name) := by
  refine ⟨?_, ?_, ?_⟩
  · intro qs ms
    obtain ⟨ext, hx⟩ :=
      addClasses_ext QField.collected qs [("hello", QField.gString "Hi there" true)]
    rw [buildSchema_queryFields_eq qs ms, hx]
    rfl
  · intro qs ms name hne
    rw [buildSchema_queryFields_eq qs ms, addClasses_lookup]
    have h1 : alookup [("hello", QField.gString "Hi there" true)] name = none := by
      have hns : ¬("hello" = name) := fun h => hne h.symm
      simp only [alookup]
      rw [if_neg hns]
    rw [h1]
    rfl
  · intro qs ms name
    have hmf : (buildSchema qs ms).mutationFields = addClasses id [] ms := rfl
    rw [hmf, addClasses_lookup]
    cases hx : alookup (concatValidFields ms) name <;>
      simp [alookup, oOr, firstValidField, hx]

/-- Witness for claim C9 as amended: instantiated at the concrete
duplicate-field classes. -/
theorem claim_C9_amended_witness :
    alookup (buildSchema [dupClassA, dupClassB] []).queryFields "shared_field"
      = (firstValidField [dupClassA, dupClassB] "shared_field").map QField.collected :=
  claim_C9_first_wins_amended.2.1 [dupClassA, dupClassB] [] "shared_field" (by decide)

/-! ## Claims C8 and C10: the response envelope -/

/-- The exact key list of every envelope, in source order. -/
def envelopeKeys : List String :=
  ["success", "message", "error_details", "data", "errors", "message_type"]

/-- The envelope contract of claim C8: exactly the six keys, list
values (never None) at error_details and errors, and a message_type
drawn from the four enum strings. -/
def goodEnvelope (d : List (String × EnvVal)) : Prop :=
  d.map Prod.fst = envelopeKeys
  ∧ (∃ l, alookup d "error_details" = some (.listV l))
  ∧ (∃ l, alookup d "errors" = some (.listV l))
  ∧ (∃ t, alookup d "message_type" = some (.strV t)
      ∧ (t = "success" ∨ t = "error" ∨ t = "warning" ∨ t = "info"))

theorem lemmo_entries (s : Bool) (m : String) (ed : Option (List EnvVal))
    (da : Option EnvVal) (er : Option (List EnvVal)) (mt : Option MessageType) :
    lemmo_message s m ed da er mt =
      [("success", .boolV s),
       ("message", .strV m),
       ("error_details", .listV (ed.getD [])),
       ("data", pyOrEmptyDict da),
       ("errors", .listV (er.getD [])),
       ("message_type", .strV ((mt.getD (if s then .success else .error)).value))] := rfl

theorem mtValue_mem (t : MessageType) :
    t.value = "success" ∨ t.value = "error" ∨ t.value = "warning" ∨ t.value = "info" := by
  cases t <;> simp [MessageType.value]

theorem goodEnvelope_lemmo (s : Bool) (m : String) (ed : Option (List EnvVal))
    (da : Option EnvVal) (er : Option (List EnvVal)) (mt : Option MessageType) :
    goodEnvelope (lemmo_message s m ed da er mt) := by
  rw [lemmo_entries]
  exact ⟨rfl, ⟨ed.getD [], rfl⟩, ⟨er.getD [], rfl⟩,
    ⟨(mt.getD (if s then .success else .error)).value, rfl, mtValue_mem _⟩⟩

/-- Claim C8: every message constructor returns a dict with exactly the
keys success, message, error_details, data, errors and message_type,
where error_details and errors are lists and message_type is one of
the four enum strings. -/
theorem claim_C8_envelope_shape :
    (∀ (s : Bool) (m : String) (ed : Option (List EnvVal)) (da : Option EnvVal)
        (er : Option (List EnvVal)) (mt : Option MessageType),
      goodEnvelope (lemmo_message s m ed da er mt))
    ∧ (∀ m da, goodEnvelope (success_message m da))
    ∧ (∀ m ed er, goodEnvelope (error_message m ed er))
    ∧ (∀ m da, goodEnvelope (warning_message m da))
    ∧ (∀ m da, goodEnvelope (info_message m da)) :=
  ⟨fun s m ed da er mt => goodEnvelope_lemmo s m ed da er mt,
   fun m da => goodEnvelope_lemmo true m none da none (some .success),
   fun m ed er => goodEnvelope_lemmo false m (some (ed.getD [])) none
     (some (er.getD [])) (some .error),
   fun m da => goodEnvelope_lemmo true m none da none (some .warning),
   fun m da => goodEnvelope_lemmo true m none da none (some .info)⟩

/-- Claim C10: warning and info envelopes report success True with
their own message_type, and a None message_type resolves to success or
error according to the success flag. -/
theorem claim_C10_message_types :
    (∀ m da, alookup (warning_message m da) "success" = some (.boolV true)
      ∧ alookup (warning_message m da) "message_type" = some (.strV "warning"))
    ∧ (∀ m da, alookup (info_message m da) "success" = some (.boolV true)
      ∧ alookup (info_message m da) "message_type" = some (.strV "info"))
    ∧ (∀ (s : Bool) (m : String) (ed : Option (List EnvVal)) (da : Option EnvVal)
        (er : Option (List EnvVal)),
      alookup (lemmo_message s m ed da er none) "message_type"
        = some (.strV (if s then "success" else "error"))) := by
  refine ⟨fun m da => ⟨rfl, rfl⟩, fun m da => ⟨rfl, rfl⟩, fun s m ed da er => ?_⟩
  cases s <;> rfl

end Lemmo
